import Mathlib

/-!
Shallow embedding of the task-and-wallet engine of `main/models.py`,
`main/services.py` and the withdrawal view in `main/views.py`.

Money is modelled in integer cents (`Int`), matching the `*_cents`
columns; the `Decimal` EUR columns (`price_used`, `commission_used`,
the settings prices) are carried directly as their cent values, which
is what `to_cents` produces from them.  Database rows become Lean
structures, querysets become lists, and every mutating method becomes
a function from state to state.  The custom `UserTaskProgress.save`
hook is applied at each point the Python code issues a save.
-/

namespace TaskEngine

/-- Ledger bucket (`WalletTxn.BUCKET_CHOICES`). -/
inductive Bucket
  | CASH
  | BONUS
deriving DecidableEq, Repr

/-- Ledger entry kind (`WalletTxn.KIND_CHOICES`). -/
inductive TxnKind
  | BONUS
  | DEPOSIT
  | WITHDRAW
  | ADJUST
deriving DecidableEq, Repr

/-- One ledger row (`WalletTxn`): positive `amount_cents` = credit, negative = debit. -/
structure WalletTxn where
  amount_cents : Int
  kind : TxnKind
  bucket : Bucket
  memo : String
  external_ref : String
deriving DecidableEq, Repr

/-- The dual-bucket wallet (`Wallet`). -/
structure Wallet where
  balance_cents : Int
  bonus_cents : Int
  pending_cents : Int
deriving DecidableEq, Repr

/-- `WalletTxn.objects.filter(wallet=self, external_ref=ref).exists()`. -/
def hasRef (led : List WalletTxn) (ref : String) : Bool :=
  led.any (fun t => t.external_ref = ref)

/-- The bucket balance a ledger row of that bucket reconciles against. -/
def bucket_balance (w : Wallet) (b : Bucket) : Int :=
  match b with
  | .CASH => w.balance_cents
  | .BONUS => w.bonus_cents

/-- `Wallet.credit_once`: idempotent credit keyed by `external_ref`. -/
def credit_once (w : Wallet) (led : List WalletTxn) (amount_cents : Int)
    (bucket : Bucket) (kind : TxnKind) (memo : String) (external_ref : String) :
    Except String (Bool × Wallet × List WalletTxn) :=
  if amount_cents ≤ 0 then
    .error "credit_once() requires positive amount_cents"
  else if external_ref ≠ "" && hasRef led external_ref then
    .ok (false, w, led)
  else
    let w' : Wallet :=
      match bucket with
      | .CASH => { w with balance_cents := w.balance_cents + amount_cents }
      | .BONUS => { w with bonus_cents := w.bonus_cents + amount_cents }
    .ok (true, w',
      { amount_cents := amount_cents, kind := kind, bucket := bucket,
        memo := memo, external_ref := external_ref } :: led)

/-- `Wallet.debit_once`: idempotent debit, stored as a negative ledger row. -/
def debit_once (w : Wallet) (led : List WalletTxn) (amount_cents : Int)
    (bucket : Bucket) (kind : TxnKind) (memo : String) (external_ref : String) :
    Except String (Bool × Wallet × List WalletTxn) :=
  if amount_cents ≤ 0 then
    .error "debit_once() requires positive amount_cents"
  else if external_ref ≠ "" && hasRef led external_ref then
    .ok (false, w, led)
  else
    let w' : Wallet :=
      match bucket with
      | .CASH => { w with balance_cents := w.balance_cents - amount_cents }
      | .BONUS => { w with bonus_cents := w.bonus_cents - amount_cents }
    .ok (true, w',
      { amount_cents := -amount_cents, kind := kind, bucket := bucket,
        memo := memo, external_ref := external_ref } :: led)

/-- `Wallet.credit`: the legacy non-idempotent credit (`external_ref=""`). -/
def Wallet.credit (w : Wallet) (led : List WalletTxn) (amount_cents : Int)
    (bucket : Bucket) (kind : TxnKind) (memo : String) :
    Except String (Wallet × List WalletTxn) :=
  if amount_cents ≤ 0 then
    .error "credit() requires positive amount_cents"
  else
    let w' : Wallet :=
      match bucket with
      | .CASH => { w with balance_cents := w.balance_cents + amount_cents }
      | .BONUS => { w with bonus_cents := w.bonus_cents + amount_cents }
    .ok (w',
      { amount_cents := amount_cents, kind := kind, bucket := bucket,
        memo := memo, external_ref := "" } :: led)

/-- `Wallet.debit`: the legacy non-idempotent debit (`external_ref=""`). -/
def Wallet.debit (w : Wallet) (led : List WalletTxn) (amount_cents : Int)
    (bucket : Bucket) (kind : TxnKind) (memo : String) :
    Except String (Wallet × List WalletTxn) :=
  if amount_cents ≤ 0 then
    .error "debit() requires positive amount_cents"
  else
    let w' : Wallet :=
      match bucket with
      | .CASH => { w with balance_cents := w.balance_cents - amount_cents }
      | .BONUS => { w with bonus_cents := w.bonus_cents - amount_cents }
    .ok (w',
      { amount_cents := -amount_cents, kind := kind, bucket := bucket,
        memo := memo, external_ref := "" } :: led)

/-- `_wallet_credit_idem`: guard non-positive amounts, then `credit_once` with
bucket CASH and kind ADJUST (the wallet always has `credit_once` here). -/
def wallet_credit_idem (w : Wallet) (led : List WalletTxn) (amount_cents : Int)
    (memo : String) (external_ref : String) : Bool × Wallet × List WalletTxn :=
  if amount_cents ≤ 0 then (false, w, led)
  else
    match credit_once w led amount_cents .CASH .ADJUST memo external_ref with
    | .ok r => r
    | .error _ => (false, w, led)

/-- `sum(ledgerEntries(W, bucket))`: total of the ledger rows of one bucket. -/
def ledgerSum (led : List WalletTxn) (b : Bucket) : Int :=
  ((led.filter (fun t => t.bucket = b)).map (fun t => t.amount_cents)).sum

/-- The reconciliation invariant: per-bucket ledger sums equal the bucket balances. -/
def reconciled (w : Wallet) (led : List WalletTxn) : Prop :=
  ledgerSum led .CASH = w.balance_cents ∧ ledgerSum led .BONUS = w.bonus_cents

instance (w : Wallet) (led : List WalletTxn) : Decidable (reconciled w led) := by
  unfold reconciled; infer_instance

/-- `DepositRequest` (the fields `confirm_deposit` reads and writes). -/
structure DepositRequest where
  status : String
  amount_cents : Int
deriving DecidableEq, Repr

/-- `services.confirm_deposit`: credits `balance_cents` directly and flips the
status to confirmed.  Note that it writes no `WalletTxn` row, so the ledger is
returned unchanged. -/
def confirm_deposit (dep : DepositRequest) (w : Wallet) (led : List WalletTxn) :
    Bool × DepositRequest × Wallet × List WalletTxn :=
  if dep.status = "confirmed" ∨ dep.status = "failed" then
    (false, dep, w, led)
  else if ¬ (dep.status = "draft" ∨ dep.status = "awaiting_payment" ∨
             dep.status = "awaiting_review") then
    (false, dep, w, led)
  else
    (true, { dep with status := "confirmed" },
     { w with balance_cents := w.balance_cents + dep.amount_cents }, led)

/-- The singleton `tasksettngs` row (the global knobs the engine reads). -/
structure tasksettngs where
  task_limit_per_cycle : Nat
  block_on_reaching_limit : Bool
  clear_trial_bonus_at_limit : Bool
  task_price_cents : Int
  task_commission_cents : Int
  cycles_between_withdrawals : Nat
deriving DecidableEq, Repr

/-- `UserTaskProgress` (the fields the engine mutates or reads). -/
structure UserTaskProgress where
  cycles_completed : Nat
  current_task_index : Nat
  is_blocked : Bool
  limit_snapshot : Nat
  price_snapshot_cents : Int
  commission_snapshot_cents : Int
  dividends_cents : Int
  dividends_paid_cents : Int
  asset_cents : Int
  processing_cents : Int
  last_withdraw_cycle : Nat
deriving DecidableEq, Repr

/-- The auto-logic in the `UserTaskProgress.save` override: `old` is the row as
stored before this save.  Rule 1 blocks (and counts a cycle) when the index has
reached the limit; rule 2 rolls to a fresh cycle when an over-limit row is
being unblocked. -/
def progress_save_hook (s : tasksettngs) (old p : UserTaskProgress) : UserTaskProgress :=
  let p1 :=
    if p.current_task_index ≥ p.limit_snapshot ∧ ¬ p.is_blocked ∧ ¬ old.is_blocked then
      { p with cycles_completed := p.cycles_completed + 1, is_blocked := true }
    else p
  if old.is_blocked ∧ ¬ p1.is_blocked ∧ old.current_task_index ≥ old.limit_snapshot then
    { p1 with
        limit_snapshot := s.task_limit_per_cycle,
        price_snapshot_cents := s.task_price_cents,
        commission_snapshot_cents := s.task_commission_cents,
        current_task_index := 0 }
  else p1

/-- One `prog.save(...)` call: the stored row is `old`, the instance is `p`. -/
def saveP (s : tasksettngs) (old p : UserTaskProgress) : UserTaskProgress :=
  progress_save_hook s old p

/-- `UserTaskProgress.add_commission`. -/
def add_commission (s : tasksettngs) (p : UserTaskProgress) (commission_cents : Int) :
    UserTaskProgress :=
  saveP s p { p with dividends_cents := p.dividends_cents + commission_cents }

/-- `UserTaskProgress.set_state_normal` (with its default `preserve_settled=True`). -/
def set_state_normal (s : tasksettngs) (p : UserTaskProgress) : UserTaskProgress :=
  if p.processing_cents = 0 ∧ p.asset_cents > p.dividends_cents then p
  else saveP s p { p with asset_cents := p.dividends_cents, processing_cents := 0 }

/-- `UserTaskProgress.set_state_admin_assigned`. -/
def set_state_admin_assigned (s : tasksettngs) (p : UserTaskProgress)
    (price_cents admin_commission_cents required_cents : Int) : UserTaskProgress :=
  saveP s p { p with
    asset_cents := -required_cents,
    processing_cents := price_cents + admin_commission_cents }

/-- `UserTaskProgress.set_state_admin_approved`. -/
def set_state_admin_approved (s : tasksettngs) (p : UserTaskProgress)
    (price_cents : Int) : UserTaskProgress :=
  saveP s p { p with asset_cents := price_cents, processing_cents := 0 }

/-- `UserTaskProgress.advance`: bump the index; at the limit (when blocking is
on) count the cycle, block, and optionally clear the trial bonus with a ledger
row. -/
def advance (s : tasksettngs) (w : Wallet) (led : List WalletTxn)
    (p : UserTaskProgress) : Wallet × List WalletTxn × UserTaskProgress :=
  let p1 := { p with current_task_index := p.current_task_index + 1 }
  if s.block_on_reaching_limit ∧ p1.current_task_index ≥ p1.limit_snapshot then
    let p2 := { p1 with cycles_completed := p1.cycles_completed + 1, is_blocked := true }
    if s.clear_trial_bonus_at_limit ∧ w.bonus_cents > 0 then
      let cleared := w.bonus_cents
      (({ w with bonus_cents := 0 } : Wallet),
       ({ amount_cents := -cleared, kind := .BONUS, bucket := .BONUS,
          memo := "Trial bonus cleared at cycle limit", external_ref := "" } : WalletTxn) :: led,
       saveP s p p2)
    else (w, led, saveP s p p2)
  else (w, led, saveP s p p1)

/-- `UserTaskProgress.unblock`: reset the index, refresh the snapshots. -/
def unblock (s : tasksettngs) (p : UserTaskProgress) : UserTaskProgress :=
  saveP s p { p with
    limit_snapshot := s.task_limit_per_cycle,
    price_snapshot_cents := s.task_price_cents,
    commission_snapshot_cents := s.task_commission_cents,
    current_task_index := 0,
    is_blocked := false }

/-- `UserTaskProgress.can_withdraw`: first withdrawal after one full cycle,
then a configurable gap of completed cycles between withdrawals. -/
def can_withdraw (s : tasksettngs) (p : UserTaskProgress) : Bool × String :=
  let gap := if s.cycles_between_withdrawals = 0 then 2 else s.cycles_between_withdrawals
  if p.cycles_completed < 1 then
    (false, "Withdrawals unlock after completing your first cycle.")
  else if p.last_withdraw_cycle = 0 then
    (true, "")
  else
    let needed := p.last_withdraw_cycle + gap
    if p.cycles_completed ≥ needed then
      (true, "")
    else
      (false, "Withdrawals unlock after " ++ toString (needed - p.cycles_completed) ++
        " more cycle(s).")

/-- `UserTaskProgress.mark_withdraw_done`. -/
def mark_withdraw_done (s : tasksettngs) (p : UserTaskProgress) : UserTaskProgress :=
  saveP s p { p with last_withdraw_cycle := p.cycles_completed }

/-- `UserTaskProgress.register_withdraw`. -/
def register_withdraw (s : tasksettngs) (p : UserTaskProgress) (amount_cents : Int) :
    UserTaskProgress :=
  if amount_cents ≤ 0 then p
  else
    let new_paid := min p.dividends_cents (p.dividends_paid_cents + amount_cents)
    if new_paid ≠ p.dividends_paid_cents then
      saveP s p { p with dividends_paid_cents := new_paid }
    else p

/-- The committed part of the `withdrawal` view (views.py): after the
`can_withdraw` gate, lock the wallet, check the balance, create the request,
move the amount from `balance_cents` to `pending_cents` and record the cycle.
No `WalletTxn` row is written. -/
def withdrawal_commit (s : tasksettngs) (w : Wallet) (led : List WalletTxn)
    (p : UserTaskProgress) (amount_cents : Int) :
    Option (Wallet × List WalletTxn × UserTaskProgress) :=
  if amount_cents > w.balance_cents then none
  else
    some ({ w with
              pending_cents := w.pending_cents + amount_cents,
              balance_cents := w.balance_cents - amount_cents },
          led,
          mark_withdraw_done s p)

/-- `UserTask.Status`. -/
inductive TaskStatus
  | PENDING
  | IN_PROGRESS
  | SUBMITTED
  | APPROVED
  | REJECTED
  | CANCELED
deriving DecidableEq, Repr

/-- `UserTask.Kind`. -/
inductive TaskKind
  | REGULAR
  | ADMIN
deriving DecidableEq, Repr

/-- One `UserTask` row (`created_at` is a logical timestamp). -/
structure UserTask where
  id : Nat
  cycle_number : Nat
  order_shown : Nat
  status : TaskStatus
  price_used_cents : Int
  commission_used_cents : Int
  task_kind : TaskKind
  assignment_total_display_cents : Int
  required_cash_cents : Int
  created_at : Nat
deriving DecidableEq, Repr

/-- The dict returned by `UserTaskProgress.display_totals`. -/
structure DisplayTotals where
  total_asset_cents : Int
  asset_cents : Int
  dividends_cents : Int
  processing_cents : Int
deriving DecidableEq, Repr

/-- The user's approved ADMIN tasks. -/
def isApprovedAdmin (t : UserTask) : Bool :=
  decide (t.task_kind = TaskKind.ADMIN ∧ t.status = TaskStatus.APPROVED)

/-- `Σ max(0, required_cash_cents)` across all approved ADMIN tasks. -/
def approvedAdminRequiredSum (tasks : List UserTask) : Int :=
  ((tasks.filter isApprovedAdmin).map (fun t => max 0 t.required_cash_cents)).sum

/-- `UserTaskProgress.display_totals`: the three display regimes. -/
def display_totals (p : UserTaskProgress) (w : Wallet) (tasks : List UserTask) :
    DisplayTotals :=
  let base_proc := p.processing_cents
  let base_div := p.dividends_cents
  let paid_div := max 0 (min p.dividends_paid_cents base_div)
  let raw_wallet_total := w.balance_cents + w.bonus_cents
  if base_proc > 0 then
    { total_asset_cents := p.asset_cents,
      asset_cents := p.asset_cents,
      dividends_cents := min paid_div (max 0 raw_wallet_total),
      processing_cents := base_proc }
  else
    let total_display := raw_wallet_total
    if tasks.any isApprovedAdmin then
      { total_asset_cents := total_display,
        asset_cents := min (max 0 (approvedAdminRequiredSum tasks)) total_display,
        dividends_cents := base_div,
        processing_cents := 0 }
    else
      let dividends_display := min paid_div total_display
      { total_asset_cents := total_display,
        asset_cents := max 0 (total_display - dividends_display),
        dividends_cents := dividends_display,
        processing_cents := 0 }

/-- `UserTask.mark_admin_assigned_effects`: snapshot the current display total
and the cash shortfall onto the task, then push the tracker into the
"assigned" regime. -/
def mark_admin_assigned_effects (s : tasksettngs) (t : UserTask)
    (p : UserTaskProgress) (w : Wallet) (tasks : List UserTask) :
    UserTask × UserTaskProgress :=
  if t.task_kind ≠ TaskKind.ADMIN then (t, p)
  else
    let totals := display_totals p w tasks
    let old_total_display := totals.total_asset_cents
    let required := max 0 (t.price_used_cents - old_total_display)
    (({ t with
         assignment_total_display_cents := old_total_display,
         required_cash_cents := required } : UserTask),
     set_state_admin_assigned s p t.price_used_cents t.commission_used_cents required)

/-- Result of `submit` and the approval helpers: the error (if raised) plus
the database-visible state.  The Python code raises before it writes anything
on every error path, and wraps each success path in one transaction, so on
error the state components equal the inputs. -/
structure SubmitResult where
  err : Option String
  task : UserTask
  wallet : Wallet
  ledger : List WalletTxn
  prog : UserTaskProgress
deriving DecidableEq, Repr

/-- `UserTask._auto_approve_regular`. -/
def auto_approve_regular (s : tasksettngs) (t : UserTask) (w : Wallet)
    (led : List WalletTxn) (p : UserTaskProgress) : SubmitResult :=
  let commission_cents := t.commission_used_cents
  let p1 := add_commission s p commission_cents
  let mid :=
    if commission_cents > 0 then
      let r := wallet_credit_idem w led commission_cents
        ("REGULAR_TASK_PAYOUT #" ++ toString t.id)
        ("REGULAR_TASK_PAYOUT#" ++ toString t.id)
      let prev_paid := p1.dividends_paid_cents
      let new_paid := prev_paid + commission_cents
      let max_pay := p1.dividends_cents
      (r.2.1, r.2.2, saveP s p1 { p1 with dividends_paid_cents := max 0 (min new_paid max_pay) })
    else (w, led, p1)
  let p3 := set_state_normal s mid.2.2
  let t1 := { t with status := TaskStatus.APPROVED }
  let fin := advance s mid.1 mid.2.1 p3
  { err := none, task := t1, wallet := fin.1, ledger := fin.2.1, prog := fin.2.2 }

/-- `UserTask._auto_approve_admin_inline`: no-op when already approved, else
credit `unpaid_old + commission` (never the price), settle the dividends,
approve and advance. -/
def auto_approve_admin_inline (s : tasksettngs) (t : UserTask) (w : Wallet)
    (led : List WalletTxn) (p : UserTaskProgress) : SubmitResult :=
  if t.status = TaskStatus.APPROVED then
    { err := none, task := t, wallet := w, ledger := led, prog := p }
  else
    let price_cents := t.price_used_cents
    let admin_commission_cents := t.commission_used_cents
    let div_cents := p.dividends_cents
    let paid_cents := max 0 (min p.dividends_paid_cents div_cents)
    let unpaid_old := div_cents - paid_cents
    let payout_cents := unpaid_old + admin_commission_cents
    let credited :=
      if payout_cents > 0 then
        let r := wallet_credit_idem w led payout_cents
          ("ADMIN_TASK_PAYOUT #" ++ toString t.id)
          ("ADMIN_TASK_PAYOUT#" ++ toString t.id)
        (r.2.1, r.2.2)
      else (w, led)
    let p1 := add_commission s p admin_commission_cents
    let p2 := saveP s p1 { p1 with dividends_paid_cents := p1.dividends_cents }
    let p3 := set_state_admin_approved s p2 price_cents
    let t1 := { t with status := TaskStatus.APPROVED }
    let fin := advance s credited.1 credited.2 p3
    { err := none, task := t1, wallet := fin.1, ledger := fin.2.1, prog := fin.2.2 }

/-- The message of the `InsufficientFunds` failure in `UserTask.submit`. -/
def insufficientFundsMsg : String :=
  "Insufficient funds — please deposit the task price and try again."

/-- `UserTask.submit`: invalid-state guard, then the ADMIN solvency check on
CASH only, then inline auto-approval (REGULAR tasks approve immediately). -/
def submit (s : tasksettngs) (t : UserTask) (w : Wallet) (led : List WalletTxn)
    (p : UserTaskProgress) : SubmitResult :=
  if t.status ≠ TaskStatus.IN_PROGRESS then
    { err := some "Task cannot be submitted in its current state.",
      task := t, wallet := w, ledger := led, prog := p }
  else if t.task_kind = TaskKind.ADMIN then
    if w.balance_cents < t.price_used_cents then
      { err := some insufficientFundsMsg, task := t, wallet := w, ledger := led, prog := p }
    else auto_approve_admin_inline s t w led p
  else auto_approve_regular s t w led p

/-- `UserTaskTemplate.Status`. -/
inductive TplStatus
  | DRAFT
  | ACTIVE
  | PAUSED
  | ARCHIVED
deriving DecidableEq, Repr

/-- `UserTaskTemplate` (the fields the spawner reads); `none` prices fall back
to the settings row. -/
structure UserTaskTemplate where
  id : Nat
  task_price_cents : Option Int
  task_commission_cents : Option Int
  status : TplStatus
  is_admin_task : Bool
deriving DecidableEq, Repr

/-- `UserTaskTemplate.effective_price`. -/
def effective_price (s : tasksettngs) (tpl : UserTaskTemplate) : Int :=
  tpl.task_price_cents.getD s.task_price_cents

/-- `UserTaskTemplate.effective_commission`. -/
def effective_commission (s : tasksettngs) (tpl : UserTaskTemplate) : Int :=
  tpl.task_commission_cents.getD s.task_commission_cents

/-- `ForcedTaskDirective.Status`. -/
inductive DirStatus
  | PENDING
  | CONSUMED
  | CANCELED
  | EXPIRED
  | SKIPPED
deriving DecidableEq, Repr

/-- `ForcedTaskDirective` (timestamps are logical `Nat` instants). -/
structure ForcedTaskDirective where
  id : Nat
  applies_on_cycle : Nat
  target_order : Nat
  template : Option UserTaskTemplate
  status : DirStatus
  expires_at : Option Nat
  created_at : Nat
deriving DecidableEq, Repr

/-- `Q(expires_at__isnull=True) | Q(expires_at__gt=now)`. -/
def notExpired (now : Nat) (d : ForcedTaskDirective) : Bool :=
  match d.expires_at with
  | none => true
  | some e => decide (now < e)

/-- `.order_by(key).first()`: the first element of the list whose sort key is
lexicographically minimal (ties keep list order, as a stable sort would). -/
def pickMin (key : α → Nat × Nat) : List α → Option α
  | [] => none
  | x :: xs =>
    match pickMin key xs with
    | none => some x
    | some y =>
      if (key y).1 < (key x).1 ∨ ((key y).1 = (key x).1 ∧ (key y).2 < (key x).2) then
        some y
      else some x

/-- `.order_by("-created_at").first()`: the first element with maximal key. -/
def pickMax (key : α → Nat) : List α → Option α
  | [] => none
  | x :: xs =>
    match pickMax key xs with
    | none => some x
    | some y => if key x < key y then some y else some x

/-- The strict-match eligibility of step 1 of the spawner. -/
def exactMatch (cycle next_order : Nat) (now : Nat) (d : ForcedTaskDirective) : Bool :=
  decide (d.applies_on_cycle = cycle) && decide (d.target_order = next_order) &&
    decide (d.status = DirStatus.PENDING) && notExpired now d

/-- The backlog eligibility of step 2 of the spawner. -/
def backlogMatch (cycle next_order : Nat) (now : Nat) (d : ForcedTaskDirective) : Bool :=
  decide (d.target_order = next_order) && decide (d.status = DirStatus.PENDING) &&
    decide (d.applies_on_cycle ≤ cycle) && notExpired now d

/-- An ADMIN task currently in flight (step 0 of the spawner). -/
def isActiveAdmin (t : UserTask) : Bool :=
  decide (t.task_kind = TaskKind.ADMIN) &&
    (decide (t.status = TaskStatus.IN_PROGRESS) || decide (t.status = TaskStatus.SUBMITTED))

/-- Errors `spawn_next_task_for_user` raises as `ValidationError`s. -/
inductive SpawnErr
  | UserBlocked
  | MissingTemplate
  | NoActiveTemplates
  | NoEligibleTemplates
deriving DecidableEq, Repr

/-- The per-user database state the spawner reads and writes. -/
structure SpawnState where
  prog : UserTaskProgress
  wallet : Wallet
  ledger : List WalletTxn
  tasks : List UserTask
  directives : List ForcedTaskDirective
  templates : List UserTaskTemplate
  now : Nat
  next_id : Nat
  next_created_at : Nat
deriving DecidableEq, Repr

/-- `spawn_next_task_for_user` (models.py): blocked guard; return an in-flight
ADMIN task (re-applying assignment effects while `IN_PROGRESS`); else consume
an exact directive, else a backlog directive, creating an ADMIN task; else a
random eligible ACTIVE regular template (`rand` stands for `random.choice`). -/
def spawn_next_task_for_user (s : tasksettngs) (st : SpawnState) (rand : Nat) :
    Except SpawnErr (UserTask × SpawnState) :=
  if st.prog.is_blocked then .error .UserBlocked
  else
    match pickMax (fun t => t.created_at) (st.tasks.filter isActiveAdmin) with
    | some existing_admin =>
      if existing_admin.status = TaskStatus.IN_PROGRESS then
        let eff := mark_admin_assigned_effects s existing_admin st.prog st.wallet st.tasks
        .ok (eff.1, { st with
          prog := eff.2,
          tasks := st.tasks.map (fun t => if t.id = existing_admin.id then eff.1 else t) })
      else .ok (existing_admin, st)
    | none =>
      let next_order := st.prog.current_task_index + 1
      let cycle := st.prog.cycles_completed
      let strict := pickMin (fun d => (d.created_at, 0))
        (st.directives.filter (exactMatch cycle next_order st.now))
      let directive :=
        match strict with
        | some d => some d
        | none => pickMin (fun d => (d.applies_on_cycle, d.created_at))
            (st.directives.filter (backlogMatch cycle next_order st.now))
      match directive with
      | some d =>
        match d.template with
        | none => .error .MissingTemplate
        | some tpl =>
          let task : UserTask :=
            { id := st.next_id, cycle_number := cycle, order_shown := next_order,
              status := TaskStatus.IN_PROGRESS,
              price_used_cents := effective_price s tpl,
              commission_used_cents := effective_commission s tpl,
              task_kind := TaskKind.ADMIN,
              assignment_total_display_cents := 0, required_cash_cents := 0,
              created_at := st.next_created_at }
          let directives' := st.directives.map
            (fun d0 => if d0.id = d.id then { d0 with status := DirStatus.CONSUMED } else d0)
          let tasksMid := task :: st.tasks
          let eff := mark_admin_assigned_effects s task st.prog st.wallet tasksMid
          .ok (eff.1, { st with
            prog := eff.2,
            tasks := tasksMid.map (fun t => if t.id = task.id then eff.1 else t),
            directives := directives',
            next_id := st.next_id + 1,
            next_created_at := st.next_created_at + 1 })
      | none =>
        let tpl_qs := st.templates.filter
          (fun tpl => decide (tpl.status = TplStatus.ACTIVE) && !tpl.is_admin_task)
        if tpl_qs.length = 0 then .error .NoActiveTemplates
        else
          let wallet_total_cents := st.wallet.balance_cents + st.wallet.bonus_cents
          let eligible := tpl_qs.filter
            (fun tpl => decide (effective_price s tpl ≤ wallet_total_cents))
          match eligible with
          | [] => .error .NoEligibleTemplates
          | e0 :: _ =>
            let tpl := (eligible.get? (rand % eligible.length)).getD e0
            let task : UserTask :=
              { id := st.next_id, cycle_number := cycle, order_shown := next_order,
                status := TaskStatus.IN_PROGRESS,
                price_used_cents := effective_price s tpl,
                commission_used_cents := effective_commission s tpl,
                task_kind := TaskKind.REGULAR,
                assignment_total_display_cents := 0, required_cash_cents := 0,
                created_at := st.next_created_at }
            .ok (task, { st with
              prog := set_state_normal s st.prog,
              tasks := task :: st.tasks,
              next_id := st.next_id + 1,
              next_created_at := st.next_created_at + 1 })

/-! ### Helper lemmas -/

theorem saveP_fields (s : tasksettngs) (old p : UserTaskProgress) :
    (saveP s old p).dividends_cents = p.dividends_cents ∧
    (saveP s old p).dividends_paid_cents = p.dividends_paid_cents ∧
    (saveP s old p).asset_cents = p.asset_cents ∧
    (saveP s old p).processing_cents = p.processing_cents ∧
    (saveP s old p).last_withdraw_cycle = p.last_withdraw_cycle := by
  unfold saveP progress_save_hook
  dsimp only
  split <;> split <;> simp

theorem saveP_index (s : tasksettngs) (old p : UserTaskProgress)
    (h : p.is_blocked = old.is_blocked) :
    (saveP s old p).current_task_index = p.current_task_index ∧
    (saveP s old p).limit_snapshot = p.limit_snapshot := by
  unfold saveP progress_save_hook
  dsimp only
  rcases hob : old.is_blocked with _ | _
  · simp only [h, hob]
    split <;> simp
  · simp [h, hob]

theorem ledgerSum_cons (t : WalletTxn) (led : List WalletTxn) (b : Bucket) :
    ledgerSum (t :: led) b =
      (if t.bucket = b then t.amount_cents else 0) + ledgerSum led b := by
  unfold ledgerSum
  by_cases h : t.bucket = b <;> simp [List.filter_cons, h]

/-- Count of ledger rows carrying a given idempotency key. -/
def refCount (led : List WalletTxn) (ref : String) : Nat :=
  (led.filter (fun t => t.external_ref = ref)).length

theorem hasRef_false_of_refCount_zero (led : List WalletTxn) (ref : String)
    (h : refCount led ref = 0) : hasRef led ref = false := by
  unfold refCount at h
  unfold hasRef
  rw [List.length_eq_zero] at h
  rw [List.any_eq_false]
  intro x hx
  simp only [decide_eq_true_eq]
  intro hxe
  have : x ∈ led.filter (fun t => decide (t.external_ref = ref)) :=
    List.mem_filter.mpr ⟨hx, by simp [hxe]⟩
  rw [h] at this
  exact absurd this (List.not_mem_nil x)

theorem add_commission_fields (s : tasksettngs) (p : UserTaskProgress) (c : Int) :
    (add_commission s p c).dividends_cents = p.dividends_cents + c ∧
    (add_commission s p c).dividends_paid_cents = p.dividends_paid_cents ∧
    (add_commission s p c).current_task_index = p.current_task_index ∧
    (add_commission s p c).limit_snapshot = p.limit_snapshot := by
  unfold add_commission
  have h1 := saveP_fields s p { p with dividends_cents := p.dividends_cents + c }
  have h2 := saveP_index s p { p with dividends_cents := p.dividends_cents + c } rfl
  exact ⟨h1.1, h1.2.1, h2.1, h2.2⟩

theorem set_state_normal_fields (s : tasksettngs) (p : UserTaskProgress) :
    (set_state_normal s p).dividends_cents = p.dividends_cents ∧
    (set_state_normal s p).dividends_paid_cents = p.dividends_paid_cents ∧
    (set_state_normal s p).current_task_index = p.current_task_index ∧
    (set_state_normal s p).limit_snapshot = p.limit_snapshot := by
  unfold set_state_normal
  split
  · exact ⟨rfl, rfl, rfl, rfl⟩
  · have h1 := saveP_fields s p
      { p with asset_cents := p.dividends_cents, processing_cents := 0 }
    have h2 := saveP_index s p
      { p with asset_cents := p.dividends_cents, processing_cents := 0 } rfl
    exact ⟨h1.1, h1.2.1, h2.1, h2.2⟩

theorem set_state_admin_approved_fields (s : tasksettngs) (p : UserTaskProgress)
    (pc : Int) :
    (set_state_admin_approved s p pc).dividends_cents = p.dividends_cents ∧
    (set_state_admin_approved s p pc).dividends_paid_cents = p.dividends_paid_cents ∧
    (set_state_admin_approved s p pc).current_task_index = p.current_task_index ∧
    (set_state_admin_approved s p pc).limit_snapshot = p.limit_snapshot := by
  unfold set_state_admin_approved
  have h1 := saveP_fields s p { p with asset_cents := pc, processing_cents := 0 }
  have h2 := saveP_index s p { p with asset_cents := pc, processing_cents := 0 } rfl
  exact ⟨h1.1, h1.2.1, h2.1, h2.2⟩

theorem advance_fields (s : tasksettngs) (w : Wallet) (led : List WalletTxn)
    (p : UserTaskProgress) :
    (advance s w led p).1.balance_cents = w.balance_cents ∧
    (advance s w led p).2.2.dividends_cents = p.dividends_cents ∧
    (advance s w led p).2.2.dividends_paid_cents = p.dividends_paid_cents := by
  simp only [advance]
  split
  · split
    · have h := saveP_fields s p
        { p with current_task_index := p.current_task_index + 1,
                 cycles_completed := p.cycles_completed + 1, is_blocked := true }
      exact ⟨rfl, h.1, h.2.1⟩
    · have h := saveP_fields s p
        { p with current_task_index := p.current_task_index + 1,
                 cycles_completed := p.cycles_completed + 1, is_blocked := true }
      exact ⟨rfl, h.1, h.2.1⟩
  · have h := saveP_fields s p { p with current_task_index := p.current_task_index + 1 }
    exact ⟨rfl, h.1, h.2.1⟩

theorem advance_clears_bonus (s : tasksettngs) (w : Wallet) (led : List WalletTxn)
    (p : UserTaskProgress) (hb : s.block_on_reaching_limit = true)
    (hc : s.clear_trial_bonus_at_limit = true)
    (hl : p.limit_snapshot ≤ p.current_task_index + 1)
    (hw : 0 < w.bonus_cents) :
    (advance s w led p).1.bonus_cents = 0 := by
  simp only [advance]
  rw [if_pos ⟨hb, hl⟩, if_pos ⟨hc, hw⟩]

theorem reconciled_credit_once_ok (w : Wallet) (led : List WalletTxn) (m : Int)
    (b : Bucket) (k : TxnKind) (memo ref : String) (res : Bool) (w' : Wallet)
    (led' : List WalletTxn) (h : reconciled w led)
    (he : credit_once w led m b k memo ref = .ok (res, w', led')) :
    reconciled w' led' := by
  unfold credit_once at he
  split at he
  · cases he
  · split at he
    · cases he
      exact h
    · cases b <;> cases he <;>
        exact ⟨by simp [ledgerSum_cons, h.1, h.2, Int.add_comm, Int.sub_eq_add_neg],
               by simp [ledgerSum_cons, h.1, h.2, Int.add_comm, Int.sub_eq_add_neg]⟩

theorem reconciled_debit_once_ok (w : Wallet) (led : List WalletTxn) (m : Int)
    (b : Bucket) (k : TxnKind) (memo ref : String) (res : Bool) (w' : Wallet)
    (led' : List WalletTxn) (h : reconciled w led)
    (he : debit_once w led m b k memo ref = .ok (res, w', led')) :
    reconciled w' led' := by
  unfold debit_once at he
  split at he
  · cases he
  · split at he
    · cases he
      exact h
    · cases b <;> cases he <;>
        exact ⟨by simp [ledgerSum_cons, h.1, h.2, Int.add_comm, Int.sub_eq_add_neg],
               by simp [ledgerSum_cons, h.1, h.2, Int.add_comm, Int.sub_eq_add_neg]⟩

theorem reconciled_credit_ok (w : Wallet) (led : List WalletTxn) (m : Int)
    (b : Bucket) (k : TxnKind) (memo : String) (w' : Wallet)
    (led' : List WalletTxn) (h : reconciled w led)
    (he : Wallet.credit w led m b k memo = .ok (w', led')) :
    reconciled w' led' := by
  unfold Wallet.credit at he
  split at he
  · cases he
  · cases b <;> cases he <;>
      exact ⟨by simp [ledgerSum_cons, h.1, h.2, Int.add_comm, Int.sub_eq_add_neg],
             by simp [ledgerSum_cons, h.1, h.2, Int.add_comm, Int.sub_eq_add_neg]⟩

theorem reconciled_debit_ok (w : Wallet) (led : List WalletTxn) (m : Int)
    (b : Bucket) (k : TxnKind) (memo : String) (w' : Wallet)
    (led' : List WalletTxn) (h : reconciled w led)
    (he : Wallet.debit w led m b k memo = .ok (w', led')) :
    reconciled w' led' := by
  unfold Wallet.debit at he
  split at he
  · cases he
  · cases b <;> cases he <;>
      exact ⟨by simp [ledgerSum_cons, h.1, h.2, Int.add_comm, Int.sub_eq_add_neg],
             by simp [ledgerSum_cons, h.1, h.2, Int.add_comm, Int.sub_eq_add_neg]⟩

theorem reconciled_wallet_credit_idem (w : Wallet) (led : List WalletTxn) (m : Int)
    (memo ref : String) (h : reconciled w led) :
    reconciled (wallet_credit_idem w led m memo ref).2.1
               (wallet_credit_idem w led m memo ref).2.2 := by
  unfold wallet_credit_idem
  split
  · exact h
  · rcases he : credit_once w led m .CASH .ADJUST memo ref with e | r
    · exact h
    · obtain ⟨res, w', led'⟩ := r
      exact reconciled_credit_once_ok w led m .CASH .ADJUST memo ref res w' led' h he

theorem reconciled_advance (s : tasksettngs) (w : Wallet) (led : List WalletTxn)
    (p : UserTaskProgress) (h : reconciled w led) :
    reconciled (advance s w led p).1 (advance s w led p).2.1 := by
  simp only [advance]
  split
  · split
    · exact ⟨by simp [ledgerSum_cons, h.1, h.2],
             by simp [ledgerSum_cons, h.1, h.2]⟩
    · exact h
  · exact h

theorem reconciled_auto_regular (s : tasksettngs) (t : UserTask) (w : Wallet)
    (led : List WalletTxn) (p : UserTaskProgress) (h : reconciled w led) :
    reconciled (auto_approve_regular s t w led p).wallet
               (auto_approve_regular s t w led p).ledger := by
  simp only [auto_approve_regular]
  split
  · exact reconciled_advance _ _ _ _
      (reconciled_wallet_credit_idem _ _ _ _ _ h)
  · exact reconciled_advance _ _ _ _ h

theorem reconciled_auto_admin (s : tasksettngs) (t : UserTask) (w : Wallet)
    (led : List WalletTxn) (p : UserTaskProgress) (h : reconciled w led) :
    reconciled (auto_approve_admin_inline s t w led p).wallet
               (auto_approve_admin_inline s t w led p).ledger := by
  simp only [auto_approve_admin_inline]
  split
  · exact h
  · split
    · exact reconciled_advance _ _ _ _
        (reconciled_wallet_credit_idem _ _ _ _ _ h)
    · exact reconciled_advance _ _ _ _ h

theorem reconciled_submit (s : tasksettngs) (t : UserTask) (w : Wallet)
    (led : List WalletTxn) (p : UserTaskProgress) (h : reconciled w led) :
    reconciled (submit s t w led p).wallet (submit s t w led p).ledger := by
  unfold submit
  split
  · exact h
  · split
    · split
      · exact h
      · exact reconciled_auto_admin s t w led p h
    · exact reconciled_auto_regular s t w led p h

theorem wallet_credit_idem_fresh (w : Wallet) (led : List WalletTxn) (m : Int)
    (memo ref : String) (hm : 0 < m) (h : hasRef led ref = false) :
    wallet_credit_idem w led m memo ref =
      (true, { w with balance_cents := w.balance_cents + m },
       (⟨m, .ADJUST, .CASH, memo, ref⟩ : WalletTxn) :: led) := by
  unfold wallet_credit_idem credit_once
  rw [if_neg (by omega), if_neg (by omega), h]
  simp

/-- Full behaviour of `_auto_approve_admin_inline` on a not-yet-approved task
with a fresh payout key, a well-formed dividend pair and a non-negative
commission. -/
theorem auto_approve_admin_spec (s : tasksettngs) (t : UserTask) (w : Wallet)
    (led : List WalletTxn) (p : UserTaskProgress) (ht : t.status ≠ TaskStatus.APPROVED)
    (hfresh : hasRef led ("ADMIN_TASK_PAYOUT#" ++ toString t.id) = false)
    (hdiv : 0 ≤ p.dividends_paid_cents ∧ p.dividends_paid_cents ≤ p.dividends_cents)
    (hcomm : 0 ≤ t.commission_used_cents) :
    (auto_approve_admin_inline s t w led p).err = none ∧
    (auto_approve_admin_inline s t w led p).wallet.balance_cents =
      w.balance_cents + (p.dividends_cents - p.dividends_paid_cents) +
        t.commission_used_cents ∧
    (auto_approve_admin_inline s t w led p).prog.dividends_paid_cents =
      (auto_approve_admin_inline s t w led p).prog.dividends_cents ∧
    (auto_approve_admin_inline s t w led p).task.status = TaskStatus.APPROVED := by
  have hclamp : max 0 (min p.dividends_paid_cents p.dividends_cents) =
      p.dividends_paid_cents := by omega
  simp only [auto_approve_admin_inline, if_neg ht, hclamp]
  set payout := p.dividends_cents - p.dividends_paid_cents + t.commission_used_cents
    with hpayout
  have hbal : ∀ (w0 : Wallet) (led0 : List WalletTxn) (q : UserTaskProgress),
      (advance s w0 led0 q).1.balance_cents = w0.balance_cents :=
    fun w0 led0 q => (advance_fields s w0 led0 q).1
  have hqp : ∀ (w0 : Wallet) (led0 : List WalletTxn) (q : UserTaskProgress),
      q.dividends_paid_cents = q.dividends_cents →
      (advance s w0 led0 q).2.2.dividends_paid_cents =
        (advance s w0 led0 q).2.2.dividends_cents := by
    intro w0 led0 q hq
    have h := advance_fields s w0 led0 q
    rw [h.2.2, h.2.1, hq]
  have hsettle : ∀ p1 : UserTaskProgress,
      (set_state_admin_approved s
        (saveP s p1 { p1 with dividends_paid_cents := p1.dividends_cents })
        t.price_used_cents).dividends_paid_cents =
      (set_state_admin_approved s
        (saveP s p1 { p1 with dividends_paid_cents := p1.dividends_cents })
        t.price_used_cents).dividends_cents := by
    intro p1
    have h1 := set_state_admin_approved_fields s
      (saveP s p1 { p1 with dividends_paid_cents := p1.dividends_cents })
      t.price_used_cents
    have h2 := saveP_fields s p1 { p1 with dividends_paid_cents := p1.dividends_cents }
    rw [h1.2.1, h1.1, h2.2.1, h2.1]
  by_cases hpos : 0 < payout
  · rw [if_pos hpos, wallet_credit_idem_fresh w led payout _ _ hpos hfresh]
    refine ⟨trivial, ?_, hqp _ _ _ (hsettle _), trivial⟩
    rw [hbal]
    show w.balance_cents + payout = _
    omega
  · rw [if_neg hpos]
    refine ⟨trivial, ?_, hqp _ _ _ (hsettle _), trivial⟩
    rw [hbal]
    show w.balance_cents = _
    omega

/-! ### Claim theorems -/

theorem auto_admin_err_none (s : tasksettngs) (t : UserTask) (w : Wallet)
    (led : List WalletTxn) (p : UserTaskProgress) :
    (auto_approve_admin_inline s t w led p).err = none := by
  unfold auto_approve_admin_inline
  split <;> rfl

theorem auto_admin_status_approved (s : tasksettngs) (t : UserTask) (w : Wallet)
    (led : List WalletTxn) (p : UserTaskProgress)
    (h : t.status ≠ TaskStatus.APPROVED) :
    (auto_approve_admin_inline s t w led p).task.status = TaskStatus.APPROVED := by
  unfold auto_approve_admin_inline
  rw [if_neg h]

/-- The default settings row: `task_limit_per_cycle=25`, blocking and trial
bonus clearing on, price €12.00, commission €1.45, withdrawal gap 2. -/
def defaultSettings : tasksettngs := ⟨25, true, true, 1200, 145, 2⟩

/-- C10: `can_withdraw` is false before the first completed cycle, true when
`last_withdraw_cycle = 0`, and otherwise true exactly when
`cycles_completed ≥ last_withdraw_cycle + gap`; `mark_withdraw_done` pins
`last_withdraw_cycle` to the current `cycles_completed`, so after withdrawing
at cycle 1 with gap 2 the gate stays closed until `cycles_completed ≥ 3`. -/
theorem can_withdraw_gating (s : tasksettngs) (p : UserTaskProgress)
    (hgap : s.cycles_between_withdrawals ≠ 0) :
    (p.cycles_completed < 1 → (can_withdraw s p).1 = false) ∧
    (1 ≤ p.cycles_completed → p.last_withdraw_cycle = 0 →
      can_withdraw s p = (true, "")) ∧
    (1 ≤ p.cycles_completed → p.last_withdraw_cycle ≠ 0 →
      ((can_withdraw s p).1 = true ↔
        p.last_withdraw_cycle + s.cycles_between_withdrawals ≤ p.cycles_completed)) ∧
    (mark_withdraw_done s p).last_withdraw_cycle = p.cycles_completed ∧
    (s.cycles_between_withdrawals = 2 → p.cycles_completed = 1 → ∀ n : Nat,
      ((can_withdraw s
          { mark_withdraw_done s p with cycles_completed := n }).1 = true ↔ 3 ≤ n)) := by
  have hmark : (mark_withdraw_done s p).last_withdraw_cycle = p.cycles_completed :=
    (saveP_fields s p _).2.2.2.2
  refine ⟨?_, ?_, ?_, hmark, ?_⟩
  · intro h
    simp only [can_withdraw]
    split_ifs <;> simp_all
  · intro h1 h2
    simp only [can_withdraw]
    split_ifs
    · simp_all
    · rfl
  · intro h1 h2
    simp only [can_withdraw]
    rw [if_neg hgap]
    split_ifs <;> simp_all
  · intro hg2 hc1 n
    simp only [can_withdraw, hmark, hc1, hg2]
    split_ifs <;> simp_all

theorem can_withdraw_gating_witness :
    can_withdraw defaultSettings ⟨1, 25, true, 25, 1200, 145, 0, 0, 0, 0, 0⟩ = (true, "") :=
  (can_withdraw_gating defaultSettings ⟨1, 25, true, 25, 1200, 145, 0, 0, 0, 0, 0⟩
    (by decide)).2.1 (by decide) (by decide)

/-- C4: with a positive amount and a fresh non-empty idempotency key,
`credit_once` inserts exactly one ledger row for that key and bumps the bucket
once; replaying the same call is a `False`-returning no-op, not an error. -/
theorem credit_once_idempotent (w : Wallet) (led : List WalletTxn) (m : Int)
    (b : Bucket) (k : TxnKind) (memo X : String) (hm : 0 < m) (hX : X ≠ "")
    (h0 : refCount led X = 0) :
    ∃ w1 led1,
      credit_once w led m b k memo X = .ok (true, w1, led1) ∧
      bucket_balance w1 b = bucket_balance w b + m ∧
      (∀ b', b' ≠ b → bucket_balance w1 b' = bucket_balance w b') ∧
      refCount led1 X = 1 ∧
      credit_once w1 led1 m b k memo X = .ok (false, w1, led1) := by
  have href := hasRef_false_of_refCount_zero led X h0
  refine ⟨(match b with
      | .CASH => { w with balance_cents := w.balance_cents + m }
      | .BONUS => { w with bonus_cents := w.bonus_cents + m }),
    (⟨m, k, b, memo, X⟩ : WalletTxn) :: led, ?_, ?_, ?_, ?_, ?_⟩
  · unfold credit_once
    rw [if_neg (by omega), href]
    simp
  · cases b <;> simp [bucket_balance]
  · intro b' hb'
    cases b <;> cases b' <;> simp_all [bucket_balance]
  · unfold refCount at h0 ⊢
    simp [List.filter_cons, h0]
  · unfold credit_once
    rw [if_neg (by omega)]
    have h1 : hasRef ((⟨m, k, b, memo, X⟩ : WalletTxn) :: led) X = true := by
      unfold hasRef
      simp
    rw [h1]
    simp [hX]

theorem credit_once_idempotent_witness :
    ∃ w1 led1,
      credit_once ⟨0, 0, 0⟩ [] 5 .CASH .DEPOSIT "m" "X" = .ok (true, w1, led1) ∧
      bucket_balance w1 .CASH = bucket_balance ⟨0, 0, 0⟩ .CASH + 5 ∧
      (∀ b', b' ≠ .CASH → bucket_balance w1 b' = bucket_balance ⟨0, 0, 0⟩ b') ∧
      refCount led1 "X" = 1 ∧
      credit_once w1 led1 5 .CASH .DEPOSIT "m" "X" = .ok (false, w1, led1) :=
  credit_once_idempotent ⟨0, 0, 0⟩ [] 5 .CASH .DEPOSIT "m" "X"
    (by decide) (by decide) (by decide)

/-- Sample rows used to instantiate the hypothesis-bearing theorems. -/
def walletA : Wallet := ⟨0, 1200, 0⟩

def progA : UserTaskProgress := ⟨0, 24, false, 25, 1200, 145, 0, 0, 0, 0, 0⟩

/-- A ledger that reconciles with `walletA` (one trial-bonus grant row). -/
def ledgerA : List WalletTxn := [⟨1200, .BONUS, .BONUS, "Trial bonus", ""⟩]

def taskA : UserTask := ⟨1, 0, 25, .IN_PROGRESS, 1200, 145, .REGULAR, 0, 0, 0⟩

def walletB : Wallet := ⟨5000, 0, 0⟩

def walletC : Wallet := ⟨8000, 0, 0⟩

def taskB : UserTask := ⟨2, 0, 1, .IN_PROGRESS, 8000, 145, .ADMIN, 0, 0, 0⟩

def progB : UserTaskProgress := ⟨0, 0, false, 25, 1200, 145, 0, 0, 0, 0, 0⟩

/-- C1 (counterexample): starting from a reconciled wallet, `confirm_deposit`
reports success and credits `balance_cents` by the deposit amount while
writing no ledger row, so the CASH ledger sum no longer equals the balance. -/
theorem confirm_deposit_breaks_reconciliation :
    reconciled ⟨0, 0, 0⟩ [] ∧
    (confirm_deposit ⟨"awaiting_payment", 100⟩ ⟨0, 0, 0⟩ []).1 = true ∧
    ¬ reconciled (confirm_deposit ⟨"awaiting_payment", 100⟩ ⟨0, 0, 0⟩ []).2.2.1
                 (confirm_deposit ⟨"awaiting_payment", 100⟩ ⟨0, 0, 0⟩ []).2.2.2 := by
  decide

/-- C1 (amended): the reconciliation invariant is preserved by every ledger
operation (`credit_once`, `debit_once`, legacy `credit`/`debit`), by the whole
`submit` flow (task payouts and the bonus clearing inside `advance`), and by
`advance` itself — but not by `confirm_deposit` or the withdrawal view, which
change `balance_cents` without writing a ledger row. -/
theorem ledger_reconciliation (s : tasksettngs) (w : Wallet) (led : List WalletTxn)
    (p : UserTaskProgress) (t : UserTask) (m : Int) (b : Bucket) (k : TxnKind)
    (memo ref : String) (h : reconciled w led) :
    (∀ res w1 led1, credit_once w led m b k memo ref = .ok (res, w1, led1) →
      reconciled w1 led1) ∧
    (∀ res w1 led1, debit_once w led m b k memo ref = .ok (res, w1, led1) →
      reconciled w1 led1) ∧
    (∀ w1 led1, Wallet.credit w led m b k memo = .ok (w1, led1) → reconciled w1 led1) ∧
    (∀ w1 led1, Wallet.debit w led m b k memo = .ok (w1, led1) → reconciled w1 led1) ∧
    reconciled (submit s t w led p).wallet (submit s t w led p).ledger ∧
    reconciled (advance s w led p).1 (advance s w led p).2.1 := by
  refine ⟨?_, ?_, ?_, ?_, reconciled_submit s t w led p h, reconciled_advance s w led p h⟩
  · intro res w1 led1 he
    exact reconciled_credit_once_ok w led m b k memo ref res w1 led1 h he
  · intro res w1 led1 he
    exact reconciled_debit_once_ok w led m b k memo ref res w1 led1 h he
  · intro w1 led1 he
    exact reconciled_credit_ok w led m b k memo w1 led1 h he
  · intro w1 led1 he
    exact reconciled_debit_ok w led m b k memo w1 led1 h he

theorem ledger_reconciliation_witness :
    reconciled (submit defaultSettings taskA walletA ledgerA progA).wallet
               (submit defaultSettings taskA walletA ledgerA progA).ledger :=
  (ledger_reconciliation defaultSettings walletA ledgerA progA taskA 5 .CASH .ADJUST "m" "r"
    (by decide)).2.2.2.2.1

/-- C2: an IN_PROGRESS ADMIN task fails `submit` with the InsufficientFunds
message exactly when the CASH bucket alone is below `price_used`; on that
failure the whole state is returned unchanged; when CASH suffices the task is
auto-approved inline. -/
theorem submit_admin_insufficient (s : tasksettngs) (t : UserTask) (w : Wallet)
    (led : List WalletTxn) (p : UserTaskProgress)
    (hk : t.task_kind = TaskKind.ADMIN) (hs : t.status = TaskStatus.IN_PROGRESS) :
    ((submit s t w led p).err = some insufficientFundsMsg ↔
      w.balance_cents < t.price_used_cents) ∧
    (w.balance_cents < t.price_used_cents →
      submit s t w led p = ⟨some insufficientFundsMsg, t, w, led, p⟩) ∧
    (t.price_used_cents ≤ w.balance_cents →
      (submit s t w led p).err = none ∧
      (submit s t w led p).task.status = TaskStatus.APPROVED) := by
  have hns : ¬ t.status ≠ TaskStatus.IN_PROGRESS := by rw [hs]; simp
  have hna : t.status ≠ TaskStatus.APPROVED := by rw [hs]; simp
  simp only [submit, if_neg hns, if_pos hk]
  refine ⟨⟨?_, ?_⟩, ?_, ?_⟩
  · intro he
    by_contra hge
    rw [if_neg hge] at he
    rw [auto_admin_err_none s t w led p] at he
    cases he
  · intro hlt
    rw [if_pos hlt]
  · intro hlt
    rw [if_pos hlt]
  · intro hge
    rw [if_neg (by omega : ¬ w.balance_cents < t.price_used_cents)]
    exact ⟨auto_admin_err_none s t w led p, auto_admin_status_approved s t w led p hna⟩

theorem submit_admin_insufficient_witness :
    submit defaultSettings taskB walletB [] progB =
      ⟨some insufficientFundsMsg, taskB, walletB, [], progB⟩ :=
  (submit_admin_insufficient defaultSettings taskB walletB [] progB rfl rfl).2.1
    (by decide)

/-- C3: an ADMIN `submit` that passes the solvency check credits CASH by
exactly the pre-approval unpaid dividends plus this task commission (never
`price_used`), fully settles the dividends, and approves the task. -/
theorem admin_approval_payout (s : tasksettngs) (t : UserTask) (w : Wallet)
    (led : List WalletTxn) (p : UserTaskProgress)
    (hk : t.task_kind = TaskKind.ADMIN) (hs : t.status = TaskStatus.IN_PROGRESS)
    (hsolv : t.price_used_cents ≤ w.balance_cents)
    (hdiv : 0 ≤ p.dividends_paid_cents ∧ p.dividends_paid_cents ≤ p.dividends_cents)
    (hcomm : 0 ≤ t.commission_used_cents)
    (hfresh : hasRef led ("ADMIN_TASK_PAYOUT#" ++ toString t.id) = false) :
    (submit s t w led p).err = none ∧
    (submit s t w led p).wallet.balance_cents =
      w.balance_cents + (p.dividends_cents - p.dividends_paid_cents) +
        t.commission_used_cents ∧
    (submit s t w led p).prog.dividends_paid_cents =
      (submit s t w led p).prog.dividends_cents ∧
    (submit s t w led p).task.status = TaskStatus.APPROVED := by
  have hns : ¬ t.status ≠ TaskStatus.IN_PROGRESS := by rw [hs]; simp
  have hna : t.status ≠ TaskStatus.APPROVED := by rw [hs]; simp
  simp only [submit, if_neg hns, if_pos hk,
    if_neg (by omega : ¬ w.balance_cents < t.price_used_cents)]
  exact auto_approve_admin_spec s t w led p hna hfresh hdiv hcomm

theorem admin_approval_payout_witness :
    (submit defaultSettings taskB walletC [] progB).err = none ∧
    (submit defaultSettings taskB walletC [] progB).wallet.balance_cents =
      walletC.balance_cents + (progB.dividends_cents - progB.dividends_paid_cents) +
        taskB.commission_used_cents ∧
    (submit defaultSettings taskB walletC [] progB).prog.dividends_paid_cents =
      (submit defaultSettings taskB walletC [] progB).prog.dividends_cents ∧
    (submit defaultSettings taskB walletC [] progB).task.status = TaskStatus.APPROVED :=
  admin_approval_payout defaultSettings taskB walletC [] progB rfl rfl
    (by decide) (by decide) (by decide) (by decide)

/-- C7 (counterexample): the same REGULAR submit in mid-cycle (index 0,
limit 25, default settings) pays the 145-cent commission but leaves
`bonus_cents` at 1200 — the bonus is only cleared when the cycle limit is
reached. -/
theorem scenario_a_midcycle_keeps_bonus :
    (submit defaultSettings taskA walletA [] progB).err = none ∧
    (submit defaultSettings taskA walletA [] progB).task.status = TaskStatus.APPROVED ∧
    (submit defaultSettings taskA walletA [] progB).wallet.balance_cents = 145 ∧
    (submit defaultSettings taskA walletA [] progB).wallet.bonus_cents = 1200 := by
  decide

/-- C7 (amended): for a wallet `{cash 0, bonus 1200}` and an IN_PROGRESS
REGULAR task with commission 145 cents, when the submit completes the cycle
(`current_task_index + 1 ≥ limit_snapshot`) under the default toggles
(blocking and bonus clearing on), `submit` approves the task, pays the
commission into CASH (145) and clears the bonus to 0. -/
theorem scenario_a_regular_submit (s : tasksettngs) (t : UserTask) (w : Wallet)
    (led : List WalletTxn) (p : UserTaskProgress)
    (hw : w.balance_cents = 0) (hwb : w.bonus_cents = 1200)
    (hk : t.task_kind = TaskKind.REGULAR) (hstat : t.status = TaskStatus.IN_PROGRESS)
    (hcomm : t.commission_used_cents = 145)
    (hblock : s.block_on_reaching_limit = true)
    (hclear : s.clear_trial_bonus_at_limit = true)
    (hlim : p.limit_snapshot ≤ p.current_task_index + 1)
    (hfresh : hasRef led ("REGULAR_TASK_PAYOUT#" ++ toString t.id) = false) :
    (submit s t w led p).err = none ∧
    (submit s t w led p).task.status = TaskStatus.APPROVED ∧
    (submit s t w led p).wallet.balance_cents = 145 ∧
    (submit s t w led p).wallet.bonus_cents = 0 := by
  have hkn : ¬ t.task_kind = TaskKind.ADMIN := by rw [hk]; simp
  have hns : ¬ t.status ≠ TaskStatus.IN_PROGRESS := by rw [hstat]; simp
  simp only [submit, if_neg hns, if_neg hkn]
  simp only [auto_approve_regular, hcomm]
  rw [if_pos (by norm_num : (145:Int) > 0)]
  rw [wallet_credit_idem_fresh w led 145 _ _ (by norm_num) hfresh]
  refine ⟨trivial, trivial, ?_, ?_⟩
  · have hadvb : ∀ (w0 : Wallet) (led0 : List WalletTxn) (q : UserTaskProgress),
        (advance s w0 led0 q).1.balance_cents = w0.balance_cents :=
      fun w0 led0 q => (advance_fields s w0 led0 q).1
    rw [hadvb]
    show w.balance_cents + 145 = 145
    omega
  · have hgen : ∀ q : UserTaskProgress,
        q.limit_snapshot ≤ q.current_task_index + 1 →
        ∀ x : Int,
          (set_state_normal s (saveP s q { q with dividends_paid_cents := x })).limit_snapshot ≤
          (set_state_normal s (saveP s q { q with dividends_paid_cents := x })).current_task_index + 1 := by
      intro q hq x
      have h1 := set_state_normal_fields s (saveP s q { q with dividends_paid_cents := x })
      have h2 := saveP_index s q { q with dividends_paid_cents := x } rfl
      rw [h1.2.2.2, h1.2.2.1, h2.2, h2.1]
      exact hq
    have hq1 : (add_commission s p 145).limit_snapshot ≤
        (add_commission s p 145).current_task_index + 1 := by
      have h1 := add_commission_fields s p 145
      rw [h1.2.2.2, h1.2.2.1]
      exact hlim
    refine advance_clears_bonus s _ _ _ hblock hclear (hgen (add_commission s p 145) hq1 _) ?_
    show (0 : Int) < w.bonus_cents
    omega

theorem scenario_a_regular_submit_witness :
    (submit defaultSettings taskA walletA [] progA).err = none ∧
    (submit defaultSettings taskA walletA [] progA).task.status = TaskStatus.APPROVED ∧
    (submit defaultSettings taskA walletA [] progA).wallet.balance_cents = 145 ∧
    (submit defaultSettings taskA walletA [] progA).wallet.bonus_cents = 0 :=
  scenario_a_regular_submit defaultSettings taskA walletA [] progA
    rfl rfl rfl rfl rfl rfl rfl (by decide) (by decide)

/-- Dividend-pair well-formedness: `0 ≤ dividends_paid_cents ≤ dividends_cents`. -/
def divOk (p : UserTaskProgress) : Prop :=
  0 ≤ p.dividends_paid_cents ∧ p.dividends_paid_cents ≤ p.dividends_cents

instance (p : UserTaskProgress) : Decidable (divOk p) := by
  unfold divOk; infer_instance

/-- C8: the invariant `0 ≤ dividends_paid_cents ≤ dividends_cents` is
preserved by every dividend-touching transition: `add_commission` (with a
non-negative amount), the regular auto-approval, the inline admin approval,
`register_withdraw`, `advance` and `unblock`. -/
theorem dividends_paid_invariant (s : tasksettngs) (t : UserTask) (w : Wallet)
    (led : List WalletTxn) (p : UserTaskProgress) (c a : Int)
    (hp : divOk p) (hc : 0 ≤ c) (hcomm : 0 ≤ t.commission_used_cents) :
    divOk (add_commission s p c) ∧
    divOk (auto_approve_regular s t w led p).prog ∧
    divOk (auto_approve_admin_inline s t w led p).prog ∧
    divOk (register_withdraw s p a) ∧
    divOk (advance s w led p).2.2 ∧
    divOk (unblock s p) := by
  obtain ⟨hp1, hp2⟩ := hp
  have hadv : ∀ (w0 : Wallet) (led0 : List WalletTxn) (q : UserTaskProgress),
      divOk q → divOk (advance s w0 led0 q).2.2 := by
    intro w0 led0 q hq
    have h := advance_fields s w0 led0 q
    unfold divOk at hq ⊢
    rw [h.2.1, h.2.2]
    exact hq
  have hnorm : ∀ q : UserTaskProgress, divOk q → divOk (set_state_normal s q) := by
    intro q hq
    have h := set_state_normal_fields s q
    unfold divOk at hq ⊢
    rw [h.1, h.2.1]
    exact hq
  have haddc : ∀ (q : UserTaskProgress) (x : Int), 0 ≤ x → divOk q →
      divOk (add_commission s q x) := by
    intro q x hx hq
    have h := add_commission_fields s q x
    unfold divOk at hq ⊢
    rw [h.1, h.2.1]
    omega
  refine ⟨haddc p c hc ⟨hp1, hp2⟩, ?_, ?_, ?_, hadv w led p ⟨hp1, hp2⟩, ?_⟩
  · simp only [auto_approve_regular]
    split
    · apply hadv
      apply hnorm
      show divOk (saveP s (add_commission s p t.commission_used_cents)
        { add_commission s p t.commission_used_cents with
            dividends_paid_cents := max 0 (min
              ((add_commission s p t.commission_used_cents).dividends_paid_cents +
                t.commission_used_cents)
              (add_commission s p t.commission_used_cents).dividends_cents) })
      have h1 := add_commission_fields s p t.commission_used_cents
      have h2 := saveP_fields s (add_commission s p t.commission_used_cents)
        { add_commission s p t.commission_used_cents with
            dividends_paid_cents := max 0 (min
              ((add_commission s p t.commission_used_cents).dividends_paid_cents +
                t.commission_used_cents)
              (add_commission s p t.commission_used_cents).dividends_cents) }
      unfold divOk
      rw [h2.1, h2.2.1]
      dsimp only
      rw [h1.1]
      omega
    · apply hadv
      apply hnorm
      exact haddc p _ hcomm ⟨hp1, hp2⟩
  · simp only [auto_approve_admin_inline]
    split
    · exact ⟨hp1, hp2⟩
    · apply hadv
      show divOk (set_state_admin_approved s
        (saveP s (add_commission s p t.commission_used_cents)
          { add_commission s p t.commission_used_cents with
              dividends_paid_cents :=
                (add_commission s p t.commission_used_cents).dividends_cents })
        t.price_used_cents)
      have h1 := add_commission_fields s p t.commission_used_cents
      have h2 := saveP_fields s (add_commission s p t.commission_used_cents)
        { add_commission s p t.commission_used_cents with
            dividends_paid_cents :=
              (add_commission s p t.commission_used_cents).dividends_cents }
      have h3 := set_state_admin_approved_fields s
        (saveP s (add_commission s p t.commission_used_cents)
          { add_commission s p t.commission_used_cents with
              dividends_paid_cents :=
                (add_commission s p t.commission_used_cents).dividends_cents })
        t.price_used_cents
      unfold divOk
      rw [h3.1, h3.2.1, h2.1, h2.2.1]
      dsimp only
      rw [h1.1]
      omega
  · unfold register_withdraw
    split
    · exact ⟨hp1, hp2⟩
    · dsimp only
      split
      · have h := saveP_fields s p
          { p with
              dividends_paid_cents := min p.dividends_cents (p.dividends_paid_cents + a) }
        unfold divOk
        rw [h.1, h.2.1]
        dsimp only
        omega
      · exact ⟨hp1, hp2⟩
  · unfold unblock
    have h := saveP_fields s p
      { p with limit_snapshot := s.task_limit_per_cycle,
               price_snapshot_cents := s.task_price_cents,
               commission_snapshot_cents := s.task_commission_cents,
               current_task_index := 0, is_blocked := false }
    unfold divOk
    rw [h.1, h.2.1]
    exact ⟨hp1, hp2⟩

theorem dividends_paid_invariant_witness :
    divOk (auto_approve_regular defaultSettings taskA walletA [] progB).prog :=
  (dividends_paid_invariant defaultSettings taskA walletA [] progB 100 50
    (by decide) (by decide) (by decide)).2.1

theorem mark_effects_id_status (s : tasksettngs) (t : UserTask)
    (p : UserTaskProgress) (w : Wallet) (tasks : List UserTask) :
    (mark_admin_assigned_effects s t p w tasks).1.id = t.id ∧
    (mark_admin_assigned_effects s t p w tasks).1.status = t.status := by
  unfold mark_admin_assigned_effects
  split
  · exact ⟨rfl, rfl⟩
  · exact ⟨rfl, rfl⟩

theorem pickMax_mem (key : α → Nat) (l : List α) (x : α)
    (h : pickMax key l = some x) : x ∈ l := by
  induction l with
  | nil => cases h
  | cons y ys ih =>
    unfold pickMax at h
    cases he : pickMax key ys with
    | none =>
      rw [he] at h
      cases h
      exact List.mem_cons_self _ _
    | some z =>
      rw [he] at h
      dsimp only at h
      split at h
      · cases h
        exact List.mem_cons_of_mem _ (ih he)
      · cases h
        exact List.mem_cons_self _ _

theorem pickMax_isSome (key : α → Nat) (l : List α) (hne : l ≠ []) :
    ∃ x, pickMax key l = some x := by
  cases l with
  | nil => exact absurd rfl hne
  | cons y ys =>
    unfold pickMax
    cases he : pickMax key ys with
    | none => exact ⟨y, rfl⟩
    | some z =>
      dsimp only
      split
      · exact ⟨z, rfl⟩
      · exact ⟨y, rfl⟩

theorem pickMin_mem (key : α → Nat × Nat) (l : List α) (x : α)
    (h : pickMin key l = some x) : x ∈ l := by
  induction l with
  | nil => cases h
  | cons y ys ih =>
    unfold pickMin at h
    cases he : pickMin key ys with
    | none =>
      rw [he] at h
      cases h
      exact List.mem_cons_self _ _
    | some z =>
      rw [he] at h
      dsimp only at h
      split at h
      · cases h
        exact List.mem_cons_of_mem _ (ih he)
      · cases h
        exact List.mem_cons_self _ _

theorem pickMin_isSome (key : α → Nat × Nat) (l : List α) (hne : l ≠ []) :
    ∃ x, pickMin key l = some x := by
  cases l with
  | nil => exact absurd rfl hne
  | cons y ys =>
    unfold pickMin
    cases he : pickMin key ys with
    | none => exact ⟨y, rfl⟩
    | some z =>
      dsimp only
      split
      · exact ⟨z, rfl⟩
      · exact ⟨y, rfl⟩

theorem pickMin_min (key : α → Nat × Nat) (l : List α) : ∀ x : α,
    pickMin key l = some x → ∀ y ∈ l,
      (key x).1 < (key y).1 ∨ ((key x).1 = (key y).1 ∧ (key x).2 ≤ (key y).2) := by
  induction l with
  | nil =>
    intro x h
    cases h
  | cons y ys ih =>
    intro x h m hm
    unfold pickMin at h
    cases he : pickMin key ys with
    | none =>
      rw [he] at h
      injection h with h1
      subst h1
      cases hm with
      | head => omega
      | tail _ hmem =>
        cases ys with
        | nil => cases hmem
        | cons a as =>
          obtain ⟨b, hb⟩ := pickMin_isSome key (a :: as) (by simp)
          rw [hb] at he
          cases he
    | some z =>
      rw [he] at h
      dsimp only at h
      split at h
      · injection h with h1
        subst h1
        cases hm with
        | head => omega
        | tail _ hmem => exact ih z he m hmem
      · injection h with h1
        subst h1
        cases hm with
        | head => omega
        | tail _ hmem =>
          have h2 := ih z he m hmem
          omega

/-- C5 (amended): while the user holds an ADMIN task in
{IN_PROGRESS, SUBMITTED}, `spawn_next_task_for_user` creates no new task: it
returns that task (with its id and status intact) and leaves the id/status
projection of the task list unchanged.  The same guard for a REGULAR in-flight
task lives in the calling view (`do_task`), not in the spawner. -/
theorem spawn_no_new_task_with_active_admin (s : tasksettngs) (st : SpawnState)
    (rand : Nat) (hb : st.prog.is_blocked = false)
    (hex : ∃ t0 ∈ st.tasks, isActiveAdmin t0 = true)
    (hids : ∀ t1 ∈ st.tasks, ∀ t2 ∈ st.tasks, t1.id = t2.id → t1 = t2) :
    ∃ task st', spawn_next_task_for_user s st rand = .ok (task, st') ∧
      st'.tasks.length = st.tasks.length ∧
      st'.tasks.map (fun t0 => (t0.id, t0.status)) =
        st.tasks.map (fun t0 => (t0.id, t0.status)) ∧
      (∃ t0 ∈ st.tasks, isActiveAdmin t0 = true ∧ task.id = t0.id ∧
        task.status = t0.status) := by
  obtain ⟨t0, ht0m, ht0a⟩ := hex
  have ht0f : t0 ∈ st.tasks.filter isActiveAdmin := List.mem_filter.mpr ⟨ht0m, ht0a⟩
  have hne : st.tasks.filter isActiveAdmin ≠ [] := List.ne_nil_of_mem ht0f
  obtain ⟨ex, hexp⟩ := pickMax_isSome (fun t => t.created_at) _ hne
  have hexf := pickMax_mem _ _ _ hexp
  have hexm : ex ∈ st.tasks := (List.mem_filter.mp hexf).1
  have hexa : isActiveAdmin ex = true := (List.mem_filter.mp hexf).2
  simp only [spawn_next_task_for_user, hb, Bool.false_eq_true, if_false, hexp]
  by_cases hst : ex.status = TaskStatus.IN_PROGRESS
  · rw [if_pos hst]
    refine ⟨_, _, rfl, ?_, ?_, ex, hexm, hexa, ?_, ?_⟩
    · exact List.length_map _ _
    · rw [List.map_map]
      refine List.map_congr_left ?_
      intro t1 ht1
      by_cases hid : t1.id = ex.id
      · have : t1 = ex := hids t1 ht1 ex hexm hid
        subst this
        have hm := mark_effects_id_status s t1 st.prog st.wallet st.tasks
        simp [Function.comp, hm.1, hm.2]
      · simp only [Function.comp, if_neg hid]
    · exact (mark_effects_id_status s ex st.prog st.wallet st.tasks).1
    · exact (mark_effects_id_status s ex st.prog st.wallet st.tasks).2
  · rw [if_neg hst]
    exact ⟨ex, st, rfl, rfl, rfl, ex, hexm, hexa, rfl, rfl⟩


/-- Tasks currently in {IN_PROGRESS, SUBMITTED}. -/
def countActive (tasks : List UserTask) : Nat :=
  (tasks.filter (fun t => decide (t.status = TaskStatus.IN_PROGRESS) ||
    decide (t.status = TaskStatus.SUBMITTED))).length

def tplCheap : UserTaskTemplate := ⟨3, some 100, some 10, .ACTIVE, false⟩

def taskRegActive : UserTask := ⟨1, 0, 1, .IN_PROGRESS, 100, 10, .REGULAR, 0, 0, 0⟩

def spawnStateReg : SpawnState :=
  { prog := progB, wallet := ⟨500, 0, 0⟩, ledger := [], tasks := [taskRegActive],
    directives := [], templates := [tplCheap], now := 100, next_id := 2,
    next_created_at := 60 }

/-- C5 (counterexample): with a REGULAR task still IN_PROGRESS (and no ADMIN
task in flight), `spawn_next_task_for_user` happily creates a second task, so
two tasks of this user are then in {IN_PROGRESS, SUBMITTED}. -/
theorem spawn_creates_second_active_task :
    countActive spawnStateReg.tasks = 1 ∧
    ((spawn_next_task_for_user defaultSettings spawnStateReg 0).toOption.map
      (fun r => countActive r.2.tasks)) = some 2 := by
  decide

def taskAdminActive : UserTask := ⟨5, 0, 1, .IN_PROGRESS, 8000, 145, .ADMIN, 5000, 3000, 40⟩

def spawnStateAdm : SpawnState :=
  { prog := progB, wallet := walletB, ledger := [], tasks := [taskAdminActive],
    directives := [], templates := [], now := 100, next_id := 9,
    next_created_at := 70 }

theorem spawn_no_new_task_with_active_admin_witness :
    ∃ task st', spawn_next_task_for_user defaultSettings spawnStateAdm 0 = .ok (task, st') ∧
      st'.tasks.length = spawnStateAdm.tasks.length ∧
      st'.tasks.map (fun t0 => (t0.id, t0.status)) =
        spawnStateAdm.tasks.map (fun t0 => (t0.id, t0.status)) ∧
      (∃ t0 ∈ spawnStateAdm.tasks, isActiveAdmin t0 = true ∧ task.id = t0.id ∧
        task.status = t0.status) :=
  spawn_no_new_task_with_active_admin defaultSettings spawnStateAdm 0 rfl
    ⟨taskAdminActive, by decide, by decide⟩ (by decide)

def tplGolden : UserTaskTemplate := ⟨7, some 8000, some 145, .ACTIVE, true⟩

def dirGolden : ForcedTaskDirective := ⟨11, 0, 1, some tplGolden, .PENDING, none, 5⟩

def spawnStateDir : SpawnState :=
  { prog := progB, wallet := walletB, ledger := [], tasks := [],
    directives := [dirGolden], templates := [], now := 100, next_id := 1,
    next_created_at := 50 }

/-- C6 (code evaluation at the failing input): the first spawn of the forced
ADMIN task (price 8000, wallet total 5000) snapshots
`required_cash_cents = 3000` and `assignment_total_display_cents = 5000`, but
a second `spawn_next_task_for_user` on the still-IN_PROGRESS task re-runs
`mark_admin_assigned_effects` against the in-flight display regime and
overwrites the snapshots with 11000 and -3000. -/
theorem spawn_reapply_mutates_admin_snapshot :
    ((spawn_next_task_for_user defaultSettings spawnStateDir 0).toOption.map
      (fun r => (r.1.required_cash_cents, r.1.assignment_total_display_cents,
        r.1.status))) = some (3000, 5000, TaskStatus.IN_PROGRESS) ∧
    (((spawn_next_task_for_user defaultSettings spawnStateDir 0).toOption.bind
      (fun r => (spawn_next_task_for_user defaultSettings r.2 0).toOption)).map
      (fun r => (r.1.id, r.1.required_cash_cents,
        r.1.assignment_total_display_cents))) = some (1, 11000, -3000) := by
  decide

theorem exactMatch_pending (c n now : Nat) (d : ForcedTaskDirective)
    (h : exactMatch c n now d = true) : d.status = DirStatus.PENDING := by
  simp only [exactMatch, Bool.and_eq_true, decide_eq_true_eq] at h
  exact h.1.2

theorem backlogMatch_pending (c n now : Nat) (d : ForcedTaskDirective)
    (h : backlogMatch c n now d = true) : d.status = DirStatus.PENDING := by
  simp only [backlogMatch, Bool.and_eq_true, decide_eq_true_eq] at h
  exact h.1.1.2

theorem mark_effects_kind (s : tasksettngs) (t : UserTask)
    (p : UserTaskProgress) (w : Wallet) (tasks : List UserTask) :
    (mark_admin_assigned_effects s t p w tasks).1.task_kind = t.task_kind := by
  unfold mark_admin_assigned_effects
  split
  · rfl
  · rfl

/-- C9: when an exact-slot directive for the current (cycle, next order) is
eligible, `spawn_next_task_for_user` consumes an exact-slot directive with the
earliest `created_at` among the exact matches and leaves every other directive
untouched (in particular every backlog-only one stays PENDING); when no exact
match exists, the consumed backlog directive is minimal in
`(applies_on_cycle, created_at)` order. -/
theorem directive_priority (s : tasksettngs) (st : SpawnState) (rand : Nat)
    (hb : st.prog.is_blocked = false)
    (hna : st.tasks.filter isActiveAdmin = [])
    (htpl : ∀ d ∈ st.directives, d.status = DirStatus.PENDING → d.template ≠ none) :
    (∀ dx ∈ st.directives,
      exactMatch st.prog.cycles_completed (st.prog.current_task_index + 1) st.now dx = true →
      ∃ d task st', spawn_next_task_for_user s st rand = .ok (task, st') ∧
        d ∈ st.directives ∧
        exactMatch st.prog.cycles_completed (st.prog.current_task_index + 1) st.now d = true ∧
        (∀ e ∈ st.directives,
          exactMatch st.prog.cycles_completed (st.prog.current_task_index + 1) st.now e = true →
          d.created_at ≤ e.created_at) ∧
        { d with status := DirStatus.CONSUMED } ∈ st'.directives ∧
        (∀ e ∈ st.directives, e.id ≠ d.id → e ∈ st'.directives) ∧
        task.task_kind = TaskKind.ADMIN) ∧
    (st.directives.filter
        (exactMatch st.prog.cycles_completed (st.prog.current_task_index + 1) st.now) = [] →
      ∀ db ∈ st.directives,
      backlogMatch st.prog.cycles_completed (st.prog.current_task_index + 1) st.now db = true →
      ∃ d task st', spawn_next_task_for_user s st rand = .ok (task, st') ∧
        d ∈ st.directives ∧
        backlogMatch st.prog.cycles_completed (st.prog.current_task_index + 1) st.now d = true ∧
        (∀ e ∈ st.directives,
          backlogMatch st.prog.cycles_completed (st.prog.current_task_index + 1) st.now e = true →
          d.applies_on_cycle < e.applies_on_cycle ∨
            (d.applies_on_cycle = e.applies_on_cycle ∧ d.created_at ≤ e.created_at)) ∧
        { d with status := DirStatus.CONSUMED } ∈ st'.directives ∧
        (∀ e ∈ st.directives, e.id ≠ d.id → e ∈ st'.directives)) := by
  constructor
  · intro dx hdxm hdxe
    have hdxf : dx ∈ st.directives.filter
        (exactMatch st.prog.cycles_completed (st.prog.current_task_index + 1) st.now) :=
      List.mem_filter.mpr ⟨hdxm, hdxe⟩
    have hne := List.ne_nil_of_mem hdxf
    obtain ⟨d, hpick⟩ := pickMin_isSome (fun d0 => (d0.created_at, 0)) _ hne
    have hdf := pickMin_mem _ _ _ hpick
    have hdm : d ∈ st.directives := (List.mem_filter.mp hdf).1
    have hde := (List.mem_filter.mp hdf).2
    have hdp := exactMatch_pending _ _ _ _ hde
    rcases htd : d.template with _ | tpl
    · exact absurd htd (htpl d hdm hdp)
    simp only [spawn_next_task_for_user, hb, Bool.false_eq_true, if_false, hna,
      pickMax, hpick, htd]
    refine ⟨d, _, _, rfl, hdm, hde, ?_, ?_, ?_, ?_⟩
    · intro e hem hee
      have h := pickMin_min (fun d0 => (d0.created_at, 0)) _ d hpick e
        (List.mem_filter.mpr ⟨hem, hee⟩)
      dsimp only at h
      omega
    · have := List.mem_map_of_mem
        (fun d0 => if d0.id = d.id then { d0 with status := DirStatus.CONSUMED } else d0) hdm
      simpa using this
    · intro e hem hne2
      have := List.mem_map_of_mem
        (fun d0 => if d0.id = d.id then { d0 with status := DirStatus.CONSUMED } else d0) hem
      simpa [hne2] using this
    · rw [mark_effects_kind]
  · intro hstrictnil db hdbm hdbe
    have hdbf : db ∈ st.directives.filter
        (backlogMatch st.prog.cycles_completed (st.prog.current_task_index + 1) st.now) :=
      List.mem_filter.mpr ⟨hdbm, hdbe⟩
    have hne := List.ne_nil_of_mem hdbf
    obtain ⟨d, hpick⟩ := pickMin_isSome (fun d0 => (d0.applies_on_cycle, d0.created_at)) _ hne
    have hdf := pickMin_mem _ _ _ hpick
    have hdm : d ∈ st.directives := (List.mem_filter.mp hdf).1
    have hde := (List.mem_filter.mp hdf).2
    have hdp := backlogMatch_pending _ _ _ _ hde
    rcases htd : d.template with _ | tpl
    · exact absurd htd (htpl d hdm hdp)
    simp only [spawn_next_task_for_user, hb, Bool.false_eq_true, if_false, hna,
      pickMax, hstrictnil, pickMin, hpick, htd]
    refine ⟨d, _, _, rfl, hdm, hde, ?_, ?_, ?_⟩
    · intro e hem hee
      have h := pickMin_min (fun d0 => (d0.applies_on_cycle, d0.created_at)) _ d hpick e
        (List.mem_filter.mpr ⟨hem, hee⟩)
      dsimp only at h
      omega
    · have := List.mem_map_of_mem
        (fun d0 => if d0.id = d.id then { d0 with status := DirStatus.CONSUMED } else d0) hdm
      simpa using this
    · intro e hem hne2
      have := List.mem_map_of_mem
        (fun d0 => if d0.id = d.id then { d0 with status := DirStatus.CONSUMED } else d0) hem
      simpa [hne2] using this


def progC9 : UserTaskProgress := ⟨1, 0, false, 25, 1200, 145, 0, 0, 0, 0, 0⟩

def dirExactW : ForcedTaskDirective := ⟨21, 1, 1, some tplGolden, .PENDING, none, 10⟩

def dirBacklogW : ForcedTaskDirective := ⟨22, 0, 1, some tplGolden, .PENDING, none, 3⟩

def spawnStateC9 : SpawnState :=
  { prog := progC9, wallet := walletB, ledger := [], tasks := [],
    directives := [dirBacklogW, dirExactW], templates := [], now := 100,
    next_id := 1, next_created_at := 50 }

theorem directive_priority_witness :
    ∃ d task st',
      spawn_next_task_for_user defaultSettings spawnStateC9 0 = .ok (task, st') ∧
      d ∈ spawnStateC9.directives ∧
      exactMatch spawnStateC9.prog.cycles_completed
        (spawnStateC9.prog.current_task_index + 1) spawnStateC9.now d = true ∧
      (∀ e ∈ spawnStateC9.directives,
        exactMatch spawnStateC9.prog.cycles_completed
          (spawnStateC9.prog.current_task_index + 1) spawnStateC9.now e = true →
        d.created_at ≤ e.created_at) ∧
      { d with status := DirStatus.CONSUMED } ∈ st'.directives ∧
      (∀ e ∈ spawnStateC9.directives, e.id ≠ d.id → e ∈ st'.directives) ∧
      task.task_kind = TaskKind.ADMIN :=
  (directive_priority defaultSettings spawnStateC9 0 rfl rfl (by decide)).1
    dirExactW (by decide) (by decide)

end TaskEngine
